import Mathlib

/-!
Shallow embedding of the detector repository: the IoU / overlap routines and the
metric-accumulating `Evaluator` from `evaluate.py` (with its CLI driver `main`),
and the mode state machine plus extra-layer generator of the SSD model from
`ssd/model.py`.  Numeric (float) quantities are modelled as rationals; numpy
arrays as lists or index-functions; code paths that raise exceptions return
`Option`/`none`.
-/

namespace Detector

/-- A bounding box in the `(y1, x1, y2, x2)` convention used throughout
`evaluate.py`. -/
structure Box where
  y1 : ℚ
  x1 : ℚ
  y2 : ℚ
  x2 : ℚ
deriving DecidableEq, Repr

/-- Box area, `(y2 - y1) * (x2 - x1)`, as computed in `compute_overlaps`. -/
def boxArea (b : Box) : ℚ := (b.y2 - b.y1) * (b.x2 - b.x1)

/-- The clamped intersection area of two boxes, mirroring the
`maximum(x2 - x1, 0) * maximum(y2 - y1, 0)` computation of `compute_iou`
(lines 13-17 of `evaluate.py`). -/
def intersectionArea (box b : Box) : ℚ :=
  let y1 := max box.y1 b.y1
  let y2 := min box.y2 b.y2
  let x1 := max box.x1 b.x1
  let x2 := min box.x2 b.x2
  max (x2 - x1) 0 * max (y2 - y1) 0

/-- `compute_iou(box, boxes, box_area, boxes_area)`: IoU of one reference box
against an array of boxes with precomputed areas. -/
def compute_iou (box : Box) (boxes : List Box) (box_area : ℚ) (boxes_area : List ℚ) :
    List ℚ :=
  (boxes.zip boxes_area).map fun bc =>
    let intersection := intersectionArea box bc.1
    let union := box_area + bc.2 - intersection
    intersection / union

/-- `compute_overlaps(boxes1, boxes2)`: the pairwise IoU matrix, filled one
column at a time by `compute_iou`, stored row-major (rows indexed by `boxes1`,
columns by `boxes2`). -/
def compute_overlaps (boxes1 boxes2 : List Box) : List (List ℚ) :=
  let area1 := boxes1.map boxArea
  let area2 := boxes2.map boxArea
  let cols := (boxes2.zip area2).map fun bc => compute_iou bc.1 boxes1 bc.2 area1
  (List.range boxes1.length).map fun r => cols.map fun col => col.getD r 0

/-- The boolean matrix `compute_overlaps(tar, src) >= threshold` built inside
`Evaluator.compute_iou`. -/
def thresholded (tar_boxes src_boxes : List Box) (threshold : ℚ) : List (List Bool) :=
  (compute_overlaps tar_boxes src_boxes).map fun row => row.map fun v => decide (threshold ≤ v)

/-- `numpy.argmax` on a boolean vector: index of the first `true`, and `0` when
no entry is `true` (or the vector is empty). -/
def boolArgmax : List Bool → ℕ
  | [] => 0
  | true :: _ => 0
  | false :: rest => if rest.any (fun b => b) then boolArgmax rest + 1 else 0

/-- Numeric value of a boolean as used by numpy when comparing a boolean array
against a float threshold. -/
def boolVal (b : Bool) : ℚ := if b then 1 else 0

/-- The static method `Evaluator.compute_iou(tar_boxes, src_boxes, threshold)`
(lines 80-87 of `evaluate.py`): threshold the pairwise IoU matrix, keep for
each row only the entry at `argmax(axis=1)`, and re-threshold.  `argmax` over
an empty axis raises in numpy, which happens exactly when `tar_boxes` is
non-empty and `src_boxes` is empty; that failure is `none` here. -/
def Evaluator.compute_iou (tar_boxes src_boxes : List Box) (threshold : ℚ) :
    Option (List (List Bool)) :=
  if tar_boxes.length ≠ 0 ∧ src_boxes.length = 0 then none
  else
    some ((thresholded tar_boxes src_boxes threshold).map fun row =>
      (List.range row.length).map fun j =>
        decide (threshold ≤ boolVal (if j = boolArgmax row then row.getD j false else false)))

/-- Scanning argmax over rationals (the semantics of array argmax: keep the
first index attaining the running maximum; ties broken by lowest index).
Arguments: remaining list, best value so far, best index so far, next index. -/
def argmaxGo : List ℚ → ℚ → ℕ → ℕ → ℕ
  | [], _, best, _ => best
  | v :: rest, bv, best, i =>
    if bv < v then argmaxGo rest v i (i + 1) else argmaxGo rest bv best (i + 1)

/-- Argmax of a rational vector with ties broken by lowest index (`0` on the
empty vector). -/
def argmaxLowest : List ℚ → ℕ
  | [] => 0
  | x :: rest => argmaxGo rest x 0 1

/-- The match-matrix construction as the specification words it: compute the
full pairwise IoU matrix, threshold it at `>= threshold` to a boolean matrix,
for each predicted-box row keep only the entry at the argmax over the
ground-truth axis (ties broken by lowest index) and zero all other entries of
the row, then re-threshold to boolean. -/
def compute_iou_match_spec (tar_boxes src_boxes : List Box) (threshold : ℚ) :
    List (List Bool) :=
  (thresholded tar_boxes src_boxes threshold).map fun row =>
    (List.range row.length).map fun j =>
      decide (threshold ≤ boolVal
        (if j = argmaxLowest (row.map boolVal) then row.getD j false else false))

/-- The accumulator state of `Evaluator.__init__`: per-threshold/per-class
`TP`/`FP`/`FN` counters and the per-class lifetime `gt_counts`/`pd_counts`,
indexed as total functions (entries outside the array bounds are never
touched). -/
structure Evaluator where
  n_class : ℕ
  sample_patch : ℕ
  threshold : ℚ
  TP : ℕ → ℕ → ℕ
  FP : ℕ → ℕ → ℕ
  FN : ℕ → ℕ → ℕ
  gt_counts : ℕ → ℕ
  pd_counts : ℕ → ℕ

/-- `Evaluator(n_class, sample_patch, threshold)`: all counters start at
zero. -/
def Evaluator.init (n_class sample_patch : ℕ) (threshold : ℚ) : Evaluator :=
  { n_class := n_class
    sample_patch := sample_patch
    threshold := threshold
    TP := fun _ _ => 0
    FP := fun _ _ => 0
    FN := fun _ _ => 0
    gt_counts := fun _ => 0
    pd_counts := fun _ => 0 }

/-- Entry `p` of `numpy.linspace(0, 1, sample_patch)`: `p / (sample_patch - 1)`
(and `0` when `sample_patch <= 1`). -/
def patchVal (sample_patch p : ℕ) : ℚ :=
  if sample_patch ≤ 1 then 0 else (p : ℚ) / ((sample_patch : ℚ) - 1)

/-- A single frame of predictions: parallel arrays of class ids, optional
scores and boxes (the unused masks component is omitted). -/
structure Predictions where
  class_ids : List ℕ
  scores : Option (List ℚ)
  bboxes : List Box

/-- A single frame of ground truths: parallel arrays of class ids and boxes
(the unused masks component is omitted). -/
structure GroundTruths where
  class_ids : List ℕ
  bboxes : List Box

/-- Well-formedness of a prediction frame: the parallel arrays have equal
lengths (scores, when present, included). -/
def Predictions.wf (pr : Predictions) : Prop :=
  pr.bboxes.length = pr.class_ids.length ∧
    (pr.scores.map List.length).getD pr.class_ids.length = pr.class_ids.length

/-- Well-formedness of a ground-truth frame: parallel arrays of equal
lengths. -/
def GroundTruths.wf (gt : GroundTruths) : Prop :=
  gt.bboxes.length = gt.class_ids.length

/-- The effective score array: `ones_like(class_ids)` when scores are absent
(line 54-55 of `evaluate.py`). -/
def defaultScores (pr : Predictions) : List ℚ :=
  pr.scores.getD (pr.class_ids.map fun _ => 1)

/-- `gt_number = sum(gt_class_ids == klass)` for one frame. -/
def gtNumber (gt : GroundTruths) (klass : ℕ) : ℕ :=
  gt.class_ids.countP fun c => decide (c = klass)

/-- `(pd_class_ids == klass).sum()` for one frame. -/
def pdTotal (pr : Predictions) (klass : ℕ) : ℕ :=
  pr.class_ids.countP fun c => decide (c = klass)

/-- `pd_mask = logical_and(pd_class_ids == klass, pd_scores >= patch)` at
prediction index `i`. -/
def pdMask (e : Evaluator) (pr : Predictions) (klass p i : ℕ) : Bool :=
  decide (pr.class_ids.getD i 0 = klass) &&
    decide (patchVal e.sample_patch p ≤ (defaultScores pr).getD i 0)

/-- `pd_number = sum(pd_mask)`. -/
def pdNumber (e : Evaluator) (pr : Predictions) (klass p : ℕ) : ℕ :=
  (List.range pr.class_ids.length).countP (pdMask e pr klass p)

/-- Entry `(i, j)` of the deduplicated boolean match matrix
`self.compute_iou(pd_bboxes, gt_bboxes, self.threshold)` (all `false` when no
predicted boxes exist, in which case the matrix is never consulted). -/
def matchMatrix (e : Evaluator) (pr : Predictions) (gt : GroundTruths) (i j : ℕ) : Bool :=
  (((if 0 < pr.bboxes.length then Evaluator.compute_iou pr.bboxes gt.bboxes e.threshold
     else some []).getD []).getD i []).getD j false

/-- `true_positive = sum(iou[pd_mask][:, gt_class_ids == klass].any(axis=0))`:
the number of ground-truth boxes of class `klass` with at least one accepted
match among the selected predictions. -/
def truePositive (e : Evaluator) (pr : Predictions) (gt : GroundTruths) (klass p : ℕ) : ℕ :=
  (List.range gt.class_ids.length).countP fun j =>
    decide (gt.class_ids.getD j 0 = klass) &&
      (List.range pr.class_ids.length).any fun i => pdMask e pr klass p i && matchMatrix e pr gt i j

/-- `Evaluator.update(predictions, groundtruths)` (lines 42-78 of
`evaluate.py`).  Returns `none` when the call raises, which happens exactly
when predicted boxes are present and the `argmax` inside
`Evaluator.compute_iou` operates on an empty ground-truth axis. -/
def Evaluator.update (e : Evaluator) (pr : Predictions) (gt : GroundTruths) :
    Option Evaluator :=
  if 0 < pr.bboxes.length ∧ Evaluator.compute_iou pr.bboxes gt.bboxes e.threshold = none then
    none
  else
    some
      { n_class := e.n_class
        sample_patch := e.sample_patch
        threshold := e.threshold
        TP := fun p klass =>
          if p < e.sample_patch ∧ klass < e.n_class ∧ pdNumber e pr klass p ≠ 0 then
            e.TP p klass + truePositive e pr gt klass p
          else e.TP p klass
        FP := fun p klass =>
          if p < e.sample_patch ∧ klass < e.n_class ∧ pdNumber e pr klass p ≠ 0 then
            e.FP p klass + (pdNumber e pr klass p - truePositive e pr gt klass p)
          else e.FP p klass
        FN := fun p klass =>
          if p < e.sample_patch ∧ klass < e.n_class then
            if pdNumber e pr klass p = 0 then e.FN p klass + gtNumber gt klass
            else e.FN p klass + (gtNumber gt klass - truePositive e pr gt klass p)
          else e.FN p klass
        gt_counts := fun klass =>
          if klass < e.n_class then e.gt_counts klass + gtNumber gt klass
          else e.gt_counts klass
        pd_counts := fun klass =>
          if klass < e.n_class then e.pd_counts klass + pdTotal pr klass
          else e.pd_counts klass }

/-- A finite sequence of `update` calls, propagating any raised exception. -/
def Evaluator.runUpdates (e : Evaluator) : List (Predictions × GroundTruths) → Option Evaluator
  | [] => some e
  | f :: rest =>
    match Evaluator.update e f.1 f.2 with
    | none => none
    | some e2 => Evaluator.runUpdates e2 rest

/-- One per-threshold ratio `a / (a + b)` with the `0/0` case sanitized to `0`
by `nan_to_num`. -/
def sanitizedRatio (a b : ℕ) : ℚ :=
  if a + b = 0 then 0 else (a : ℚ) / ((a : ℚ) + (b : ℚ))

/-- The `precision` property: `nan_to_num(TP / (TP + FP)).mean(axis=0)`, one
value per class. -/
def Evaluator.precision (e : Evaluator) (klass : ℕ) : ℚ :=
  ((List.range e.sample_patch).map fun p => sanitizedRatio (e.TP p klass) (e.FP p klass)).sum /
    (e.sample_patch : ℚ)

/-- The `recall` property: `nan_to_num(TP / (TP + FN)).mean(axis=0)`, one value
per class. -/
def Evaluator.recall (e : Evaluator) (klass : ℕ) : ℚ :=
  ((List.range e.sample_patch).map fun p => sanitizedRatio (e.TP p klass) (e.FN p klass)).sum /
    (e.sample_patch : ℚ)

/-- The `mAP` property (lines 99-108 of `evaluate.py`): `prev_recall` and `ap`
start as zero arrays over classes; the loop runs over
`zip(precision[::-1], recall[::-1])` — the class axis reversed, since
`precision`/`recall` hold one value per class — and each iteration updates the
whole `ap` array with a scalar `precision * (recall - prev_recall)` and rebinds
`prev_recall` to the scalar `recall`. -/
def Evaluator.mAP (e : Evaluator) : ℕ → ℚ :=
  (((List.range e.n_class).reverse.map fun c => (e.precision c, e.recall c)).foldl
    (fun (st : (ℕ → ℚ) × (ℕ → ℚ)) pr => (fun k => st.1 k + pr.1 * (pr.2 - st.2 k), fun _ => pr.2))
    ((fun _ => (0 : ℚ)), (fun _ => (0 : ℚ)))).1

/-- The same reverse-order accumulation collapsed to a single scalar (every
class receives the same accumulated value). -/
def mAPScalar (e : Evaluator) : ℚ :=
  (((List.range e.n_class).reverse.map fun c => (e.precision c, e.recall c)).foldl
    (fun st pr => (st.1 + pr.1 * (pr.2 - st.2), pr.2)) ((0 : ℚ), (0 : ℚ))).1

/-- One parsed row of a per-frame detection result file: column 1 is the class
id, column 2 the score, columns 3.. the box. -/
structure DetRow where
  klass : ℕ
  score : ℚ
  bbox : Box

/-- One iteration of the CLI loop in `main` (lines 128-148 of `evaluate.py`):
a failed read of the result file for `index` skips the frame, a frame with no
ground-truth boxes is skipped, and otherwise the frame is fed to `update` with
all ground-truth class ids set to `1`. -/
def mainStep (dataset : List (List Box)) (readResult : ℕ → Option (List DetRow))
    (e : Evaluator) (index : ℕ) : Option Evaluator :=
  match readResult index with
  | none => some e
  | some detection =>
    let boxes := dataset.getD index []
    if boxes.length = 0 then some e
    else
      Evaluator.update e
        { class_ids := detection.map DetRow.klass
          scores := some (detection.map DetRow.score)
          bboxes := detection.map DetRow.bbox }
        { class_ids := boxes.map fun _ => 1
          bboxes := boxes }

/-- The CLI loop over a list of frame indices. -/
def runMain (dataset : List (List Box)) (readResult : ℕ → Option (List DetRow)) :
    List ℕ → Evaluator → Option Evaluator
  | [], e => some e
  | i :: rest, e =>
    match mainStep dataset readResult e i with
    | none => none
    | some e2 => runMain dataset readResult rest e2

/-- The evaluation CLI `main`: an `Evaluator(n_class=2)` (default
`sample_patch=11`, `threshold=0.5`) folded over every frame index of the
dataset. -/
def mainLoop (dataset : List (List Box)) (readResult : ℕ → Option (List DetRow)) :
    Option Evaluator :=
  runMain dataset readResult (List.range dataset.length) (Evaluator.init 2 11 (1 / 2))

/-- The total ground-truth count printed by `main`: `gt_counts` summed over
classes `1 .. n_class - 1` (class 0, background, skipped). -/
def reportedGtTotal (e : Evaluator) : ℕ :=
  ((List.range e.n_class).drop 1).foldl (fun acc klass => acc + e.gt_counts klass) 0

/-- The ground-truth total the code actually accumulates: box counts summed
over exactly the frames whose result-file read succeeds and whose ground truth
is non-empty. -/
def readableGtSum (dataset : List (List Box)) (readResult : ℕ → Option (List DetRow)) : ℕ :=
  ((List.range dataset.length).map fun i =>
    if (readResult i).isSome ∧ (dataset.getD i []).length ≠ 0 then (dataset.getD i []).length
    else 0).sum

/-- The ground-truth total claimed by the specification: box counts summed over
all frames with non-empty ground truth, readable result file or not. -/
def nonEmptyGtSum (dataset : List (List Box)) : ℕ :=
  ((List.range dataset.length).map fun i => (dataset.getD i []).length).sum

/-- An entry of the `SSD300.EXTRAS` configuration list: a channel count or the
literal downsampling marker `S`. -/
inductive ExtraEntry
  | num (n : ℕ)
  | S
deriving DecidableEq, Repr

/-- `SSD300.EXTRAS = [256, S, 512, 128, S, 256, 128, 256, 128, 256]`. -/
def EXTRAS : List ExtraEntry :=
  [.num 256, .S, .num 512, .num 128, .S, .num 256, .num 128, .num 256, .num 128, .num 256]

/-- The hyperparameters of one generated `nn.Conv2d` extra layer. -/
structure Conv2d where
  in_channels : ℕ
  out_channels : ℕ
  kernel_size : ℕ
  stride : ℕ
  padding : ℕ
deriving DecidableEq, Repr

/-- The channel count carried by the head of the remaining entry list (the
`EXTRAS[i + 1]` lookup performed at an `S` entry). -/
def nextOut : List ExtraEntry → ℕ
  | .num n :: _ => n
  | _ => 0

/-- The generator body of `SSD300.extra`: `in_channels` carries the previous
raw entry (possibly the literal `S`, which suppresses the yield), and the
kernel-size iterator `cycle((1, 3))` advances only when a layer is yielded. -/
def extraGo (in_channels : ExtraEntry) (kernel : ℕ) : List ExtraEntry → List Conv2d
  | [] => []
  | feature :: rest =>
    match in_channels with
    | .S => extraGo feature kernel rest
    | .num c =>
      { in_channels := c
        out_channels := match feature with | .S => nextOut rest | .num n => n
        kernel_size := kernel
        stride := if feature = .S then 2 else 1
        padding := if feature = .S then 1 else 0 } ::
        extraGo feature (if kernel = 1 then 3 else 1) rest

/-- `SSD300.extra(in_channels)` applied to the `EXTRAS` list (lines 160-168 of
`ssd/model.py`). -/
def SSD300.extra (in_channels : ℕ) : List Conv2d :=
  extraGo (.num in_channels) 1 EXTRAS

/-- The mode-dependent state of the `SSD` base model relevant to `detect`:
`num_classes` and the optional decoder, recorded by the `num_classes` it was
constructed with (`self.detector = Detector(self.num_classes)`). -/
structure SSDModel where
  num_classes : ℕ
  detector : Option ℕ
deriving DecidableEq, Repr

/-- `SSD.__init__` leaves `self.detector = None`. -/
def SSDModel.make (num_classes : ℕ) : SSDModel :=
  { num_classes := num_classes, detector := none }

/-- Outcome of `SSD.detect`: the InvalidState exception, or decoded detections
produced by the decoder bound to its `num_classes`. -/
inductive DetectOutcome
  | invalidState
  | decoded (num_classes : ℕ)
deriving DecidableEq, Repr

/-- `SSD.detect` (lines 53-57 of `ssd/model.py`): raises InvalidState when no
decoder exists, otherwise invokes the decoder. -/
def SSDModel.detect (m : SSDModel) : DetectOutcome :=
  match m.detector with
  | none => .invalidState
  | some d => .decoded d

/-- `SSD.eval` (lines 59-61): instantiate a decoder bound to `num_classes`. -/
def SSDModel.evalMode (m : SSDModel) : SSDModel :=
  { m with detector := some m.num_classes }

/-- `SSD.train` (lines 63-65): discard the decoder. -/
def SSDModel.trainMode (m : SSDModel) : SSDModel :=
  { m with detector := none }

end Detector

namespace Detector

/-- Positive-extent well-formedness of a box: `y1 < y2` and `x1 < x2`. -/
def Box.proper (b : Box) : Prop := b.y1 < b.y2 ∧ b.x1 < b.x2

theorem boxArea_pos (b : Box) (hb : b.proper) : 0 < boxArea b :=
  mul_pos (sub_pos.mpr hb.1) (sub_pos.mpr hb.2)

theorem intersectionArea_self (a : Box) (ha : a.proper) :
    intersectionArea a a = boxArea a := by
  rw [intersectionArea, boxArea]
  simp only [max_self, min_self]
  rw [max_eq_left (sub_nonneg.mpr ha.2.le), max_eq_left (sub_nonneg.mpr ha.1.le)]
  ring

/-- C6: for two identical proper boxes the IoU is 1; for two proper boxes with
zero (clamped) intersection the IoU is 0; and for box A = (0,0,10,10) and
box B = (0,0,5,5) the IoU is 25/100 = 1/4. -/
theorem compute_iou_basic_values (a b : Box) :
    (a = b → a.proper → compute_iou a [b] (boxArea a) [boxArea b] = [1]) ∧
    (a.proper → b.proper → intersectionArea a b = 0 →
      compute_iou a [b] (boxArea a) [boxArea b] = [0]) ∧
    compute_overlaps [⟨0, 0, 10, 10⟩] [⟨0, 0, 5, 5⟩] = [[1 / 4]] := by
  refine ⟨?_, ?_, ?_⟩
  · rintro rfl ha
    have hpos := boxArea_pos a ha
    simp only [compute_iou, List.zip_cons_cons, List.zip_nil_right, List.map_cons,
      List.map_nil, intersectionArea_self a ha]
    have hden : boxArea a + boxArea a - boxArea a = boxArea a := by ring
    rw [hden, div_self (ne_of_gt hpos)]
  · intro ha hb hzero
    simp only [compute_iou, List.zip_cons_cons, List.zip_nil_right, List.map_cons,
      List.map_nil, hzero, zero_div]
  · norm_num [compute_overlaps, compute_iou, intersectionArea, boxArea, List.zip_cons_cons,
      List.range_succ, List.getD]

/-- Witness for C6: evaluates the theorem at the identical pair
(0,0,2,2)/(0,0,2,2) and the disjoint pair (0,0,1,1)/(5,5,6,6). -/
theorem compute_iou_basic_values_witness :
    compute_iou ⟨0, 0, 2, 2⟩ [⟨0, 0, 2, 2⟩] (boxArea ⟨0, 0, 2, 2⟩) [boxArea ⟨0, 0, 2, 2⟩] = [1] ∧
    compute_iou ⟨0, 0, 1, 1⟩ [⟨5, 5, 6, 6⟩] (boxArea ⟨0, 0, 1, 1⟩) [boxArea ⟨5, 5, 6, 6⟩] = [0] :=
  ⟨(compute_iou_basic_values ⟨0, 0, 2, 2⟩ ⟨0, 0, 2, 2⟩).1 rfl
      (by constructor <;> norm_num),
   (compute_iou_basic_values ⟨0, 0, 1, 1⟩ ⟨5, 5, 6, 6⟩).2.1
      (by constructor <;> norm_num) (by constructor <;> norm_num)
      (by norm_num [intersectionArea])⟩

/-- C9: `detect` raises InvalidState exactly when no decoder exists;
evaluation mode installs a decoder bound to `num_classes` (after which
`detect` succeeds), and training mode discards it (after which `detect`
raises again). -/
theorem detect_invalid_state_iff_no_decoder (m : SSDModel) :
    (m.detect = DetectOutcome.invalidState ↔ m.detector = none) ∧
    m.evalMode.detector = some m.num_classes ∧
    m.evalMode.detect = DetectOutcome.decoded m.num_classes ∧
    m.trainMode.detector = none ∧
    m.trainMode.detect = DetectOutcome.invalidState := by
  refine ⟨?_, rfl, rfl, rfl, rfl⟩
  cases h : m.detector <;> simp [SSDModel.detect, h]

/-- Counterexample to C8 as stated: the `EXTRAS` traversal does not produce a
layer for each of the 10 entries with kernel sizes (1,3,1,3,1,3,1,3,1,3) — the
entries immediately following an `S` marker are skipped. -/
theorem extra_kernel_sequence_not_ten :
    ¬ (SSD300.extra 1024).map Conv2d.kernel_size = [1, 3, 1, 3, 1, 3, 1, 3, 1, 3] := by
  decide

/-- C8 (amended): the traversal of `EXTRAS` yields exactly 8 convolution
layers — entries directly after an `S` yield none — with kernel sizes
alternating 1,3 across the yielded layers, stride 2 / padding 1 / output
channels taken from the next entry at each `S`, and stride 1 / padding 0 /
output channels equal to the entry everywhere else. -/
theorem extra_layers_exact :
    SSD300.extra 1024 =
      [⟨1024, 256, 1, 1, 0⟩, ⟨256, 512, 3, 2, 1⟩, ⟨512, 128, 1, 1, 0⟩, ⟨128, 256, 3, 2, 1⟩,
       ⟨256, 128, 1, 1, 0⟩, ⟨128, 256, 3, 1, 0⟩, ⟨256, 128, 1, 1, 0⟩, ⟨128, 256, 3, 1, 0⟩] := by
  decide

end Detector

namespace Detector

theorem argmaxGo_boolVal_one (l : List Bool) (best i : ℕ) :
    argmaxGo (l.map boolVal) 1 best i = best := by
  induction l generalizing best i with
  | nil => rfl
  | cons b rest ih =>
    cases b
    · rw [List.map_cons, show boolVal false = (0 : ℚ) from rfl]
      simp only [argmaxGo, if_neg (by norm_num : ¬ (1 : ℚ) < 0)]
      exact ih best (i + 1)
    · rw [List.map_cons, show boolVal true = (1 : ℚ) from rfl]
      simp only [argmaxGo, if_neg (lt_irrefl (1 : ℚ))]
      exact ih best (i + 1)

theorem argmaxGo_boolVal_zero (l : List Bool) (best i : ℕ) :
    argmaxGo (l.map boolVal) 0 best i =
      if l.any (fun b => b) then i + boolArgmax l else best := by
  induction l generalizing best i with
  | nil => rfl
  | cons b rest ih =>
    cases b
    · rw [List.map_cons, show boolVal false = (0 : ℚ) from rfl]
      simp only [argmaxGo, if_neg (lt_irrefl (0 : ℚ))]
      rw [ih best (i + 1)]
      cases hany : rest.any (fun b => b) with
      | false => simp [boolArgmax, hany]
      | true => simp only [List.any_cons, hany, Bool.or_true, if_true, boolArgmax]; omega
    · rw [List.map_cons, show boolVal true = (1 : ℚ) from rfl]
      simp only [argmaxGo, if_pos (by norm_num : (0 : ℚ) < 1)]
      rw [argmaxGo_boolVal_one]
      simp [boolArgmax]

theorem argmaxLowest_boolVal (row : List Bool) :
    argmaxLowest (row.map boolVal) = boolArgmax row := by
  cases row with
  | nil => rfl
  | cons b rest =>
    cases b
    · rw [List.map_cons, show boolVal false = (0 : ℚ) from rfl]
      show argmaxGo (rest.map boolVal) 0 0 1 = _
      rw [argmaxGo_boolVal_zero]
      cases hany : rest.any (fun b => b) with
      | false => simp [boolArgmax, hany]
      | true => simp only [boolArgmax, hany, if_true]; omega
    · rw [List.map_cons, show boolVal true = (1 : ℚ) from rfl]
      show argmaxGo (rest.map boolVal) 1 0 1 = _
      rw [argmaxGo_boolVal_one]
      rfl

/-- C2: on non-empty prediction and ground-truth box arrays,
`Evaluator.compute_iou` returns exactly the matrix described by the
specification: threshold the full pairwise IoU matrix at `>= threshold`, keep
for each predicted-box row only the entry at the argmax over the ground-truth
axis (ties broken by lowest index), zero all other entries of the row, and
re-threshold to boolean. -/
theorem compute_iou_matches_spec (tar_boxes src_boxes : List Box) (threshold : ℚ)
    (_htar : tar_boxes ≠ []) (hsrc : src_boxes ≠ []) :
    Evaluator.compute_iou tar_boxes src_boxes threshold =
      some (compute_iou_match_spec tar_boxes src_boxes threshold) := by
  rw [Evaluator.compute_iou, if_neg, compute_iou_match_spec]
  · congr 1
    apply List.map_congr_left
    intro row _
    rw [argmaxLowest_boolVal]
  · rintro ⟨-, hlen⟩
    exact hsrc (List.length_eq_zero.mp hlen)

/-- Witness for C2 at a concrete pair of one-box arrays. -/
theorem compute_iou_matches_spec_witness :
    ([(⟨0, 0, 2, 2⟩ : Box)] ≠ []) ∧
    Evaluator.compute_iou [⟨0, 0, 2, 2⟩] [⟨0, 0, 1, 1⟩] (1 / 2) =
      some (compute_iou_match_spec [⟨0, 0, 2, 2⟩] [⟨0, 0, 1, 1⟩] (1 / 2)) :=
  ⟨List.cons_ne_nil _ _,
   compute_iou_matches_spec _ _ _ (List.cons_ne_nil _ _) (List.cons_ne_nil _ _)⟩

end Detector

namespace Detector

/-- C1: a successful single-frame `update`, at each class `klass` and threshold
index `p`: with no selected prediction of the class, `FN` grows by that class
ground-truth count and `TP`/`FP` are unchanged; otherwise `TP` grows by the
number of ground-truth boxes of the class with at least one accepted match
among the selected predictions, `FP` by the selected count minus that number,
and `FN` by the ground-truth count minus that number.  `gt_counts` and
`pd_counts` grow by the per-frame per-class ground-truth and prediction counts,
independent of threshold. -/
theorem update_per_class_threshold_deltas (e e2 : Evaluator) (pr : Predictions)
    (gt : GroundTruths) (_hwfp : pr.wf) (_hwfg : gt.wf)
    (hup : e.update pr gt = some e2) (klass p : ℕ)
    (hk : klass < e.n_class) (hp : p < e.sample_patch) :
    (pdNumber e pr klass p = 0 →
      e2.FN p klass = e.FN p klass + gtNumber gt klass ∧
      e2.TP p klass = e.TP p klass ∧ e2.FP p klass = e.FP p klass) ∧
    (pdNumber e pr klass p ≠ 0 →
      e2.TP p klass = e.TP p klass + truePositive e pr gt klass p ∧
      e2.FP p klass = e.FP p klass + (pdNumber e pr klass p - truePositive e pr gt klass p) ∧
      e2.FN p klass = e.FN p klass + (gtNumber gt klass - truePositive e pr gt klass p)) ∧
    e2.gt_counts klass = e.gt_counts klass + gtNumber gt klass ∧
    e2.pd_counts klass = e.pd_counts klass + pdTotal pr klass := by
  rw [Evaluator.update] at hup
  split at hup
  · exact absurd hup (by simp)
  · obtain rfl := Option.some.inj hup
    refine ⟨fun h0 => ?_, fun hne => ?_, ?_, ?_⟩
    · exact ⟨by simp [hp, hk, h0], by simp [h0], by simp [h0]⟩
    · exact ⟨by simp [hp, hk, hne], by simp [hp, hk, hne], by simp [hp, hk, hne]⟩
    · simp [hk]
    · simp [hk]

/-- Concrete frame data used by witnesses: one class-0 and one class-1
prediction, three ground-truth boxes (two of class 0, one of class 1). -/
def prW : Predictions := ⟨[0, 1], none, [⟨0, 0, 1, 1⟩, ⟨20, 20, 21, 21⟩]⟩

def gtW : GroundTruths := ⟨[0, 0, 1], [⟨0, 0, 1, 1⟩, ⟨10, 10, 11, 11⟩, ⟨20, 20, 21, 21⟩]⟩

def e0W : Evaluator := Evaluator.init 2 2 (1 / 2)

def updW : Option Evaluator := e0W.update prW gtW

theorem updW_isSome : updW.isSome = true := by
  rw [updW, Evaluator.update, if_neg]
  · rfl
  · rintro ⟨-, hnone⟩
    rw [Evaluator.compute_iou, if_neg (by simp [prW, gtW])] at hnone
    exact Option.some_ne_none _ hnone

def e2W : Evaluator := updW.get updW_isSome

theorem updW_eq : e0W.update prW gtW = some e2W := (Option.some_get updW_isSome).symm

/-- Witness for C1 at the concrete frame, class 1, threshold index 0. -/
theorem update_per_class_threshold_deltas_witness :
    (e0W.update prW gtW = some e2W) ∧
    ((pdNumber e0W prW 1 0 = 0 →
      e2W.FN 0 1 = e0W.FN 0 1 + gtNumber gtW 1 ∧
      e2W.TP 0 1 = e0W.TP 0 1 ∧ e2W.FP 0 1 = e0W.FP 0 1) ∧
    (pdNumber e0W prW 1 0 ≠ 0 →
      e2W.TP 0 1 = e0W.TP 0 1 + truePositive e0W prW gtW 1 0 ∧
      e2W.FP 0 1 = e0W.FP 0 1 + (pdNumber e0W prW 1 0 - truePositive e0W prW gtW 1 0) ∧
      e2W.FN 0 1 = e0W.FN 0 1 + (gtNumber gtW 1 - truePositive e0W prW gtW 1 0)) ∧
    e2W.gt_counts 1 = e0W.gt_counts 1 + gtNumber gtW 1 ∧
    e2W.pd_counts 1 = e0W.pd_counts 1 + pdTotal prW 1) :=
  ⟨updW_eq,
   update_per_class_threshold_deltas e0W e2W prW gtW ⟨rfl, rfl⟩ rfl updW_eq 1 0
     (by decide) (by decide)⟩

end Detector

namespace Detector

theorem range_getD_map {α : Type} (l : List α) (d : α) :
    (List.range l.length).map (fun j => l.getD j d) = l := by
  induction l with
  | nil => rfl
  | cons a t ih =>
    have hcomp : (List.range t.length).map ((fun j => (a :: t).getD j d) ∘ (· + 1)) = t := by
      rw [show ((fun j => (a :: t).getD j d) ∘ (· + 1)) = fun j => t.getD j d from rfl]
      exact ih
    rw [List.length_cons, List.range_succ_eq_map, List.map_cons, List.map_map, hcomp]
    rfl

theorem countP_range_getD {α : Type} (l : List α) (d : α) (q : α → Bool) :
    (List.range l.length).countP (fun j => q (l.getD j d)) = l.countP q := by
  conv_rhs => rw [← range_getD_map l d]
  rw [List.countP_map]
  rfl

theorem truePositive_le_gtNumber (e : Evaluator) (pr : Predictions) (gt : GroundTruths)
    (klass p : ℕ) : truePositive e pr gt klass p ≤ gtNumber gt klass := by
  rw [truePositive, gtNumber, ← countP_range_getD gt.class_ids 0 (fun c => decide (c = klass))]
  apply List.countP_mono_left
  intro j _ hj
  rw [Bool.and_eq_true] at hj
  exact hj.1

theorem update_preserves_shape (e e2 : Evaluator) (pr : Predictions) (gt : GroundTruths)
    (hup : e.update pr gt = some e2) :
    e2.n_class = e.n_class ∧ e2.sample_patch = e.sample_patch ∧ e2.threshold = e.threshold := by
  rw [Evaluator.update] at hup
  split at hup
  · exact absurd hup (by simp)
  · obtain rfl := Option.some.inj hup
    exact ⟨rfl, rfl, rfl⟩

theorem update_TP_FN_gt_step (e e2 : Evaluator) (pr : Predictions) (gt : GroundTruths)
    (hup : e.update pr gt = some e2) (p k : ℕ) (hp : p < e.sample_patch) (hk : k < e.n_class)
    (hbase : e.TP p k + e.FN p k = e.gt_counts k) :
    e2.TP p k + e2.FN p k = e2.gt_counts k := by
  have htp := truePositive_le_gtNumber e pr gt k p
  rw [Evaluator.update] at hup
  split at hup
  · exact absurd hup (by simp)
  · obtain rfl := Option.some.inj hup
    by_cases h0 : pdNumber e pr k p = 0
    · simp only [hp, hk, h0, and_true, true_and, if_true, if_pos, not_true_eq_false,
        and_false, if_false]
      simp [hp, hk, h0, hbase]
      omega
    · simp [hp, hk, h0, hbase]
      omega

theorem runUpdates_TP_FN_gt (frames : List (Predictions × GroundTruths))
    (e s : Evaluator) (h : e.runUpdates frames = some s)
    (p k : ℕ) (hp : p < e.sample_patch) (hk : k < e.n_class)
    (hbase : e.TP p k + e.FN p k = e.gt_counts k) :
    s.TP p k + s.FN p k = s.gt_counts k := by
  induction frames generalizing e with
  | nil =>
    rw [Evaluator.runUpdates] at h
    obtain rfl := Option.some.inj h
    exact hbase
  | cons f rest ih =>
    rw [Evaluator.runUpdates] at h
    cases hu : e.update f.1 f.2 with
    | none => rw [hu] at h; exact absurd h (by simp)
    | some e2 =>
      rw [hu] at h
      obtain ⟨hn, hsp, -⟩ := update_preserves_shape e e2 f.1 f.2 hu
      exact ih e2 h (hsp ▸ hp) (hn ▸ hk) (update_TP_FN_gt_step e e2 f.1 f.2 hu p k hp hk hbase)

/-- C10: after any finite sequence of successful `update` calls on a fresh
`Evaluator`, `TP[p][k] + FN[p][k] = gt_counts[k]` for every in-range threshold
index `p` and class `k`. -/
theorem TP_plus_FN_eq_gt_counts (n sp : ℕ) (th : ℚ)
    (frames : List (Predictions × GroundTruths)) (s : Evaluator)
    (h : (Evaluator.init n sp th).runUpdates frames = some s)
    (p k : ℕ) (hp : p < sp) (hk : k < n) :
    s.TP p k + s.FN p k = s.gt_counts k :=
  runUpdates_TP_FN_gt frames (Evaluator.init n sp th) s h p k hp hk rfl

theorem runUpdatesW_eq : (Evaluator.init 2 2 (1 / 2)).runUpdates [(prW, gtW)] = some e2W := by
  rw [Evaluator.runUpdates, show Evaluator.init 2 2 (1 / 2) = e0W from rfl, updW_eq]
  rfl

/-- Witness for C10: one concrete frame, threshold index 1, class 1. -/
theorem TP_plus_FN_eq_gt_counts_witness :
    e2W.TP 1 1 + e2W.FN 1 1 = e2W.gt_counts 1 :=
  TP_plus_FN_eq_gt_counts 2 2 (1 / 2) [(prW, gtW)] e2W runUpdatesW_eq 1 1
    (by decide) (by decide)

end Detector

namespace Detector

theorem sanitizedRatio_nonneg (a b : ℕ) : 0 ≤ sanitizedRatio a b := by
  rw [sanitizedRatio]
  split
  · exact le_refl 0
  · positivity

theorem sanitizedRatio_le_one (a b : ℕ) : sanitizedRatio a b ≤ 1 := by
  rw [sanitizedRatio]
  split
  · exact zero_le_one
  case isFalse h =>
    have hpos : (0 : ℚ) < (a : ℚ) + (b : ℚ) := by
      have hab : 0 < a + b := Nat.pos_of_ne_zero h
      exact_mod_cast hab
    rw [div_le_one hpos]
    exact le_add_of_nonneg_right (Nat.cast_nonneg b)

theorem sanitizedMean_bounds (sp : ℕ) (hsp : 1 ≤ sp) (f g : ℕ → ℕ) :
    0 ≤ ((List.range sp).map fun p => sanitizedRatio (f p) (g p)).sum / (sp : ℚ) ∧
    ((List.range sp).map fun p => sanitizedRatio (f p) (g p)).sum / (sp : ℚ) ≤ 1 := by
  have hspq : (0 : ℚ) < (sp : ℚ) := by exact_mod_cast hsp
  have hsum0 : 0 ≤ ((List.range sp).map fun p => sanitizedRatio (f p) (g p)).sum := by
    apply List.sum_nonneg
    intro x hx
    obtain ⟨p, -, rfl⟩ := List.mem_map.mp hx
    exact sanitizedRatio_nonneg _ _
  have hsum1 : ((List.range sp).map fun p => sanitizedRatio (f p) (g p)).sum ≤ (sp : ℚ) := by
    have := List.sum_le_card_nsmul ((List.range sp).map fun p => sanitizedRatio (f p) (g p)) 1
      (by intro x hx; obtain ⟨p, -, rfl⟩ := List.mem_map.mp hx; exact sanitizedRatio_le_one _ _)
    rwa [List.length_map, List.length_range, nsmul_eq_mul, mul_one] at this
  exact ⟨div_nonneg hsum0 hspq.le, (div_le_one hspq).mpr hsum1⟩

theorem runUpdates_preserves_shape (frames : List (Predictions × GroundTruths))
    (e s : Evaluator) (h : e.runUpdates frames = some s) :
    s.n_class = e.n_class ∧ s.sample_patch = e.sample_patch := by
  induction frames generalizing e with
  | nil =>
    rw [Evaluator.runUpdates] at h
    obtain rfl := Option.some.inj h
    exact ⟨rfl, rfl⟩
  | cons f rest ih =>
    rw [Evaluator.runUpdates] at h
    cases hu : e.update f.1 f.2 with
    | none => rw [hu] at h; exact absurd h (by simp)
    | some e2 =>
      rw [hu] at h
      obtain ⟨hn, hsp, -⟩ := update_preserves_shape e e2 f.1 f.2 hu
      obtain ⟨hn2, hsp2⟩ := ih e2 h
      exact ⟨hn2.trans hn, hsp2.trans hsp⟩

/-- C7: after any finite sequence of successful `update` calls on a fresh
`Evaluator` with at least one sampled threshold, every entry of the derived
`precision` and `recall` arrays lies in [0, 1] (the 0/0 ratios having been
sanitized to 0 before averaging). -/
theorem precision_recall_in_unit_interval (n sp : ℕ) (th : ℚ)
    (frames : List (Predictions × GroundTruths)) (s : Evaluator)
    (h : (Evaluator.init n sp th).runUpdates frames = some s)
    (hsp : 1 ≤ sp) (klass : ℕ) :
    0 ≤ s.precision klass ∧ s.precision klass ≤ 1 ∧
    0 ≤ s.recall klass ∧ s.recall klass ≤ 1 := by
  obtain ⟨-, hsps⟩ := runUpdates_preserves_shape frames _ s h
  have hsp1 : 1 ≤ s.sample_patch := by rw [hsps]; exact hsp
  obtain ⟨hp0, hp1⟩ := sanitizedMean_bounds s.sample_patch hsp1
    (fun p => s.TP p klass) (fun p => s.FP p klass)
  obtain ⟨hr0, hr1⟩ := sanitizedMean_bounds s.sample_patch hsp1
    (fun p => s.TP p klass) (fun p => s.FN p klass)
  exact ⟨hp0, hp1, hr0, hr1⟩

/-- Witness for C7: the empty update sequence on `Evaluator(2, 11, 1/2)`,
class 1. -/
theorem precision_recall_in_unit_interval_witness :
    0 ≤ (Evaluator.init 2 11 (1 / 2)).precision 1 ∧
    (Evaluator.init 2 11 (1 / 2)).precision 1 ≤ 1 ∧
    0 ≤ (Evaluator.init 2 11 (1 / 2)).recall 1 ∧
    (Evaluator.init 2 11 (1 / 2)).recall 1 ≤ 1 :=
  precision_recall_in_unit_interval 2 11 (1 / 2) [] (Evaluator.init 2 11 (1 / 2)) rfl
    (by decide) 1

end Detector

namespace Detector

theorem foldl_pair_broadcast (pairs : List (ℚ × ℚ)) (ap : ℕ → ℚ) (c : ℚ) (k : ℕ) :
    ((pairs.foldl (fun (st : (ℕ → ℚ) × (ℕ → ℚ)) pr =>
        (fun j => st.1 j + pr.1 * (pr.2 - st.2 j), fun _ => pr.2)) (ap, fun _ => c)).1 k) =
    (pairs.foldl (fun (st : ℚ × ℚ) pr => (st.1 + pr.1 * (pr.2 - st.2), pr.2)) (ap k, c)).1 := by
  induction pairs generalizing ap c with
  | nil => rfl
  | cons pr rest ih => exact ih _ pr.2

theorem mAP_eq_scalar (e : Evaluator) (k : ℕ) : e.mAP k = mAPScalar e := by
  rw [Evaluator.mAP, mAPScalar]
  exact foldl_pair_broadcast _ (fun _ => 0) 0 k

theorem scalarFold_stays_one (pairs : List (ℚ × ℚ)) (hall : ∀ pr ∈ pairs, pr = (1, 1)) :
    pairs.foldl (fun (st : ℚ × ℚ) pr => (st.1 + pr.1 * (pr.2 - st.2), pr.2))
      ((1 : ℚ), (1 : ℚ)) = (1, 1) := by
  induction pairs with
  | nil => rfl
  | cons pr rest ih =>
    rw [List.foldl_cons, hall pr (List.mem_cons_self _ _)]
    norm_num
    exact ih fun q hq => hall q (List.mem_cons_of_mem _ hq)

theorem scalarFold_ones (pairs : List (ℚ × ℚ)) (hne : pairs ≠ [])
    (hall : ∀ pr ∈ pairs, pr = (1, 1)) :
    (pairs.foldl (fun (st : ℚ × ℚ) pr => (st.1 + pr.1 * (pr.2 - st.2), pr.2))
      ((0 : ℚ), (0 : ℚ))).1 = 1 := by
  cases pairs with
  | nil => exact absurd rfl hne
  | cons pr rest =>
    rw [List.foldl_cons, hall pr (List.mem_cons_self _ _)]
    norm_num
    exact congrArg Prod.fst
      (scalarFold_stays_one rest fun q hq => hall q (List.mem_cons_of_mem _ hq))

/-- C3 (amended): the `mAP` loop iterates the per-class threshold-averaged
(precision, recall) pairs in reverse class order with a single accumulator
whose scalar value is broadcast to every class entry, so each entry of `mAP`
equals the same reverse-order accumulated sum; consequently the entry of a
perfectly detected class is 1 only via the global accumulation — e.g. when
every class has precision 1 and recall 1. -/
theorem mAP_reverse_class_accumulation (e : Evaluator) (k : ℕ) :
    e.mAP k = mAPScalar e ∧
    (1 ≤ e.n_class →
      (∀ c, c < e.n_class → e.precision c = 1 ∧ e.recall c = 1) →
      e.mAP k = 1) := by
  refine ⟨mAP_eq_scalar e k, fun hn hall => ?_⟩
  rw [mAP_eq_scalar, mAPScalar]
  apply scalarFold_ones
  · intro hmap
    rw [List.map_eq_nil_iff, List.reverse_eq_nil_iff, List.range_eq_nil] at hmap
    omega
  · intro pr hpr
    obtain ⟨c, hc, rfl⟩ := List.mem_map.mp hpr
    have hcn : c < e.n_class := List.mem_range.mp (List.mem_reverse.mp hc)
    obtain ⟨h1, h2⟩ := hall c hcn
    rw [h1, h2]

/-- Concrete data refuting C3 as stated: class 1 is detected perfectly while
class 0 is only half recalled. -/
def prC3 : Predictions := ⟨[0, 1], none, [⟨0, 0, 1, 1⟩, ⟨20, 20, 21, 21⟩]⟩

def gtC3 : GroundTruths := ⟨[0, 0, 1], [⟨0, 0, 1, 1⟩, ⟨10, 10, 11, 11⟩, ⟨20, 20, 21, 21⟩]⟩

def sC3 : Evaluator :=
  ((Evaluator.init 2 11 (1 / 2)).runUpdates [(prC3, gtC3)]).getD (Evaluator.init 0 0 0)

unseal Rat.add Rat.mul Rat.sub Rat.inv in
/-- Counterexample to C3 as stated: after one update, class 1 has
`TP = gt_counts` and `FP = FN = 0` at every threshold index, yet its `mAP`
entry is not 1 (the reverse iteration runs over classes and mixes the recall of class 0
into every entry). -/
theorem mAP_perfect_class_entry_not_one :
    ((Evaluator.init 2 11 (1 / 2)).runUpdates [(prC3, gtC3)]).isSome = true ∧
    (∀ p, p < 11 → sC3.TP p 1 = sC3.gt_counts 1 ∧ sC3.FP p 1 = 0 ∧ sC3.FN p 1 = 0) ∧
    0 < sC3.gt_counts 1 ∧
    Evaluator.mAP sC3 1 ≠ 1 := by decide

/-- A single-class evaluator state with perfect detection. -/
def ePerfect : Evaluator :=
  { n_class := 1
    sample_patch := 1
    threshold := 1 / 2
    TP := fun _ _ => 1
    FP := fun _ _ => 0
    FN := fun _ _ => 0
    gt_counts := fun _ => 1
    pd_counts := fun _ => 1 }

unseal Rat.add Rat.mul Rat.sub Rat.inv in
/-- Witness for C3 (amended) on the perfect single-class evaluator. -/
theorem mAP_reverse_class_accumulation_witness :
    1 ≤ ePerfect.n_class ∧ Evaluator.mAP ePerfect 0 = 1 :=
  ⟨by decide,
   (mAP_reverse_class_accumulation ePerfect 0).2 (by decide)
     (fun c hc => by
       have hc1 : c < 1 := hc
       have hc0 : c = 0 := by omega
       subst hc0
       exact ⟨by decide, by decide⟩)⟩

end Detector

namespace Detector

/-- C4 (amended): on well-formed inputs, `update` raises no exception whenever
the ground-truth box array is non-empty or the predicted box array is empty —
zero predicted boxes and zero-area boxes included; with predictions present
and zero ground-truth boxes it raises (see the counterexample). -/
theorem update_no_exception (e : Evaluator) (pr : Predictions) (gt : GroundTruths)
    (_hwfp : pr.wf) (_hwfg : gt.wf) (hsafe : gt.bboxes ≠ [] ∨ pr.bboxes = []) :
    (e.update pr gt).isSome = true := by
  have hguard : ¬ (0 < pr.bboxes.length ∧
      Evaluator.compute_iou pr.bboxes gt.bboxes e.threshold = none) := by
    rintro ⟨hpos, hnone⟩
    rw [Evaluator.compute_iou] at hnone
    rcases hsafe with hgt | hpr
    · rw [if_neg] at hnone
      · exact Option.some_ne_none _ hnone
      · rintro ⟨-, hlen⟩
        exact hgt (List.length_eq_zero.mp hlen)
    · rw [hpr] at hpos
      exact absurd hpos (by simp)
  rw [Evaluator.update, if_neg hguard]
  rfl

/-- Witness for C4 (amended) on concrete frames, covering a zero-area
prediction box. -/
theorem update_no_exception_witness :
    ((Evaluator.init 2 11 (1 / 2)).update
      ⟨[1], none, [⟨0, 0, 0, 0⟩]⟩ ⟨[1], [⟨0, 0, 1, 1⟩]⟩).isSome = true :=
  update_no_exception (Evaluator.init 2 11 (1 / 2)) ⟨[1], none, [⟨0, 0, 0, 0⟩]⟩
    ⟨[1], [⟨0, 0, 1, 1⟩]⟩ ⟨rfl, rfl⟩ rfl (Or.inl (List.cons_ne_nil _ _))

/-- Counterexample to C4 as stated: with one well-formed prediction present
and zero ground-truth boxes, `update` raises (the `argmax` over the empty
ground-truth axis of the thresholded IoU matrix). -/
theorem update_empty_gt_raises :
    Predictions.wf ⟨[1], none, [⟨0, 0, 1, 1⟩]⟩ ∧
    GroundTruths.wf ⟨[], []⟩ ∧
    (Evaluator.init 2 11 (1 / 2)).update ⟨[1], none, [⟨0, 0, 1, 1⟩]⟩ ⟨[], []⟩ = none := by
  refine ⟨⟨rfl, rfl⟩, rfl, ?_⟩
  rw [Evaluator.update, if_pos]
  refine ⟨by simp, ?_⟩
  rw [Evaluator.compute_iou, if_pos]
  exact ⟨by simp, rfl⟩

theorem gtNumber_ones (boxes : List Box) :
    gtNumber ⟨boxes.map fun _ => 1, boxes⟩ 1 = boxes.length := by
  rw [gtNumber]
  show (boxes.map fun _ => (1 : ℕ)).countP (fun c => decide (c = 1)) = boxes.length
  rw [List.countP_map]
  exact congrFun List.countP_true boxes

theorem mainStep_gt_counts (dataset : List (List Box))
    (readResult : ℕ → Option (List DetRow)) (e e2 : Evaluator) (i : ℕ)
    (h1 : 1 < e.n_class) (h : mainStep dataset readResult e i = some e2) :
    e2.n_class = e.n_class ∧
    e2.gt_counts 1 = e.gt_counts 1 +
      (if (readResult i).isSome ∧ (dataset.getD i []).length ≠ 0
        then (dataset.getD i []).length else 0) := by
  rw [mainStep] at h
  cases hr : readResult i with
  | none =>
    simp only [hr] at h
    obtain rfl := Option.some.inj h
    simp [hr]
  | some detection =>
    simp only [hr, Option.isSome_some] at h ⊢
    by_cases hb : (dataset.getD i []).length = 0
    · rw [if_pos hb] at h
      obtain rfl := Option.some.inj h
      refine ⟨rfl, ?_⟩
      rw [if_neg fun hc => hc.2 hb, Nat.add_zero]
    · rw [if_neg hb] at h
      rw [Evaluator.update, if_neg] at h
      · obtain rfl := Option.some.inj h
        refine ⟨rfl, ?_⟩
        show (if 1 < e.n_class
            then e.gt_counts 1 + gtNumber ⟨(dataset.getD i []).map fun _ => 1, dataset.getD i []⟩ 1
            else e.gt_counts 1) = _
        rw [if_pos h1, gtNumber_ones, if_pos (by exact ⟨by trivial, hb⟩)]
      · rintro ⟨-, hnone⟩
        rw [Evaluator.compute_iou, if_neg] at hnone
        · exact Option.some_ne_none _ hnone
        · rintro ⟨-, hlen⟩
          exact hb (by simpa using hlen)
  
theorem runMain_gt_counts (dataset : List (List Box))
    (readResult : ℕ → Option (List DetRow)) (idxs : List ℕ) (e s : Evaluator)
    (h1 : 1 < e.n_class) (h : runMain dataset readResult idxs e = some s) :
    s.n_class = e.n_class ∧
    s.gt_counts 1 = e.gt_counts 1 +
      (idxs.map fun i => if (readResult i).isSome ∧ (dataset.getD i []).length ≠ 0
        then (dataset.getD i []).length else 0).sum := by
  induction idxs generalizing e with
  | nil =>
    rw [runMain] at h
    obtain rfl := Option.some.inj h
    simp
  | cons i rest ih =>
    rw [runMain] at h
    cases hm : mainStep dataset readResult e i with
    | none => rw [hm] at h; exact absurd h (by simp)
    | some e2 =>
      rw [hm] at h
      obtain ⟨hn, hg⟩ := mainStep_gt_counts dataset readResult e e2 i h1 hm
      obtain ⟨hn2, hg2⟩ := ih e2 (hn ▸ h1) h
      refine ⟨hn2.trans hn, ?_⟩
      rw [hg2, hg, List.map_cons, List.sum_cons]
      omega

/-- C5 (amended): the total ground-truth count reported by the CLI equals the
sum of ground-truth box counts over exactly those frames whose result-file
read succeeds AND whose ground truth is non-empty; a frame whose result file
is absent or malformed is skipped before its ground truth is counted. -/
theorem reported_gt_total_requires_readable (dataset : List (List Box))
    (readResult : ℕ → Option (List DetRow)) (e : Evaluator)
    (h : mainLoop dataset readResult = some e) :
    reportedGtTotal e = readableGtSum dataset readResult := by
  obtain ⟨hn, hgt⟩ := runMain_gt_counts dataset readResult (List.range dataset.length)
    (Evaluator.init 2 11 (1 / 2)) e (by decide) h
  have hn2 : e.n_class = 2 := hn.trans rfl
  rw [reportedGtTotal, hn2, show (List.range 2).drop 1 = [1] from rfl,
    List.foldl_cons, List.foldl_nil, readableGtSum]
  have hz : (Evaluator.init 2 11 (1 / 2)).gt_counts 1 = 0 := rfl
  rw [hz] at hgt
  omega

/-- Dataset for the C5 scenario: two frames, each with one ground-truth box;
a readable result file exists only for frame 0. -/
def dsC5 : List (List Box) := [[⟨0, 0, 1, 1⟩], [⟨0, 0, 1, 1⟩]]

def rrC5 : ℕ → Option (List DetRow) :=
  fun i => if i = 0 then some [⟨1, 1, ⟨0, 0, 1, 1⟩⟩] else none

unseal Rat.add Rat.mul Rat.sub Rat.inv in
theorem mlC5_isSome : (mainLoop dsC5 rrC5).isSome = true := by decide

def eC5 : Evaluator := (mainLoop dsC5 rrC5).get mlC5_isSome

/-- Witness for C5 (amended) on the two-frame scenario. -/
theorem reported_gt_total_requires_readable_witness :
    mainLoop dsC5 rrC5 = some eC5 ∧ reportedGtTotal eC5 = readableGtSum dsC5 rrC5 :=
  ⟨(Option.some_get mlC5_isSome).symm,
   reported_gt_total_requires_readable dsC5 rrC5 eC5 (Option.some_get mlC5_isSome).symm⟩

unseal Rat.add Rat.mul Rat.sub Rat.inv in
/-- Counterexample to C5 as stated: both frames have non-empty ground truth
(total 2 boxes), but the reported total counts only frame 0, whose result file
was readable — the ground truth of the unreadable frame is not counted. -/
theorem main_gt_total_skips_unreadable_frames :
    (mainLoop dsC5 rrC5).isSome = true ∧
    reportedGtTotal ((mainLoop dsC5 rrC5).getD (Evaluator.init 0 0 0)) = 1 ∧
    nonEmptyGtSum dsC5 = 2 := by decide

end Detector
